import Mathlib

/- Shallow embedding of src/maincapstoneproject.py: a FastAPI movie-catalog
service with user registration, JWT login, and ownership-checked movie CRUD.
The SQLAlchemy-backed database is modelled as explicit state (lists of rows
plus autoincrement counters); each handler is a function threading that
state.  External cryptographic primitives (bcrypt via passlib, HMAC-SHA256
via python-jose) are modelled as deterministic Lean functions: the claims
depend only on verify-is-equality-of-MAC and verify-password-is-boolean,
never on the internals of the hash. -/

namespace Capstone

/-- Row of the `users` table (src line 30): id is the integer primary key,
`password` stores the bcrypt hash. -/
structure User where
  id : Nat
  username : String
  password : String
  deriving Repr, DecidableEq

/-- Row of the `movies` table (src line 36): `user_id` is the owner's id. -/
structure Movie where
  id : Nat
  title : String
  description : String
  user_id : Nat
  deriving Repr, DecidableEq

/-- The persistent store: rows in insertion order (SQLite rowid order, the
order an unordered SELECT returns) plus the next autoincrement primary keys.
Ratings and comments have no endpoints and are omitted. -/
structure DB where
  users : List User
  movies : List Movie
  nextUserId : Nat
  nextMovieId : Nat
  deriving Repr, DecidableEq

/-- `HTTPException(status_code, detail)` as raised by the handlers. -/
structure HTTPException where
  status_code : Nat
  detail : String
  deriving Repr, DecidableEq

/-- Model of `SECRET_KEY` (src line 23, environment override or the insecure
placeholder default). Its value is irrelevant to every claim. -/
def SECRET_KEY : String := "your_secret_key"

/-- `ACCESS_TOKEN_EXPIRE_MINUTES = 30` (src line 25). -/
def ACCESS_TOKEN_EXPIRE_MINUTES : Nat := 30

/-- Model of `pwd_context.hash` (bcrypt, src line 82).  Real bcrypt salts the
hash; the claims only use that hashing is a function and that `verify` checks
a plaintext against a stored blob, so a deterministic model suffices. -/
def get_password_hash (password : String) : String :=
  String.append "bcrypt$" password

/-- Model of `pwd_context.verify` (src line 79): true exactly when the
plaintext hashes to the stored blob. -/
def verify_password (plain_password hashed_password : String) : Bool :=
  hashed_password == get_password_hash plain_password

/-- The JWT claim set this service encodes: the `user_id` claim (absent when
the dict had none) and the `exp` claim in seconds. -/
structure Payload where
  user_id : Option Nat
  exp : Nat
  deriving Repr, DecidableEq

/-- Model of HMAC-SHA256 over the serialised claims: an arbitrary computable
keyed function of the secret and the payload.  Verification in `jwt_decode`
is equality with this value, which is the only property the code relies on. -/
def macSign (secret : String) (p : Payload) : Nat :=
  secret.length * 1000003 + (p.user_id.getD 0) * 65537 + p.exp * 31 + 7

/-- An encoded JWT: the claim set together with its signature.  A tampered
token is any `Token` whose `sig` differs from `macSign SECRET_KEY payload`. -/
structure Token where
  payload : Payload
  sig : Nat
  deriving Repr, DecidableEq

/-- `create_access_token(data, expires_delta)` (src lines 85-93): `exp` is
now + delta, falling back to 15 minutes when `expires_delta` is `None` or the
falsy `timedelta(0)`; the result is signed with the server secret.  `now` is
`datetime.utcnow()` in seconds. -/
def create_access_token (user_id : Option Nat) (expires_delta : Option Nat)
    (now : Nat) : Token :=
  let expire :=
    match expires_delta with
    | some d => if d == 0 then now + 15 * 60 else now + d
    | none => now + 15 * 60
  let payload : Payload := { user_id := user_id, exp := expire }
  { payload := payload, sig := macSign SECRET_KEY payload }

/-- `jwt.decode(token, SECRET_KEY, algorithms=[ALGORITHM])` at current time
`now`, per python-jose: signature verified first, then the `exp` claim is
rejected exactly when `exp < now` (zero leeway); both failures raise a
`JWTError`, modelled as `none`. -/
def jwt_decode (secret : String) (token : Token) (now : Nat) : Option Payload :=
  if token.sig == macSign secret token.payload then
    if token.payload.exp < now then none else some token.payload
  else none

/-- The 401 raised by `get_current_user` (src lines 96-100). -/
def credentials_exception : HTTPException :=
  { status_code := 401, detail := "Could not validate credentials" }

/-- `get_current_user` (src lines 95-111): decode the bearer token, read the
`user_id` claim, and resolve it against the users table; any failure raises
the same 401. -/
def get_current_user (db : DB) (token : Token) (now : Nat) :
    Except HTTPException User :=
  match jwt_decode SECRET_KEY token now with
  | none => .error credentials_exception
  | some payload =>
    match payload.user_id with
    | none => .error credentials_exception
    | some uid =>
      match db.users.find? (fun u => u.id == uid) with
      | none => .error credentials_exception
      | some user => .ok user

/-- `POST /register` (src lines 113-122): reject with 400 when the username
exists, otherwise hash the password and insert a fresh user.  Returns the
(possibly updated) store and the response. -/
def register_user (db : DB) (username password : String) :
    DB × Except HTTPException String :=
  match db.users.find? (fun u => u.username == username) with
  | some _ =>
    (db, .error { status_code := 400, detail := "Username already taken" })
  | none =>
    let user : User :=
      { id := db.nextUserId, username := username
        password := get_password_hash password }
    ({ db with users := db.users ++ [user], nextUserId := db.nextUserId + 1 },
     .ok "User created successfully")

/-- The response body of a successful `POST /token`. -/
structure TokenResponse where
  access_token : Token
  token_type : String
  deriving Repr, DecidableEq

/-- `POST /token` (src lines 124-131): a single branch raises 401 both when
the username is unknown and when the password fails verification; on success
a token with the 30-minute ttl and subject `user.id` is issued at time
`now`.  The handler performs no write, so the store is returned untouched. -/
def login_for_access_token (db : DB) (username password : String) (now : Nat) :
    DB × Except HTTPException TokenResponse :=
  let result : Except HTTPException TokenResponse :=
    match db.users.find? (fun u => u.username == username) with
    | none => .error { status_code := 401, detail := "Invalid credentials" }
    | some user =>
      if verify_password password user.password then
        .ok { access_token :=
                create_access_token (some user.id)
                  (some (ACCESS_TOKEN_EXPIRE_MINUTES * 60)) now
              token_type := "bearer" }
      else .error { status_code := 401, detail := "Invalid credentials" }
  (db, result)

/-- The `{id, title, description}` body every movie endpoint returns. -/
structure MovieOut where
  id : Nat
  title : String
  description : String
  deriving Repr, DecidableEq

/-- Projection of a movie row to its response body. -/
def movieOut (m : Movie) : MovieOut :=
  { id := m.id, title := m.title, description := m.description }

/-- `GET /movies/` (src lines 133-136):
`db.query(Movie).offset(skip).limit(limit).all()` in rowid order. -/
def get_movies (db : DB) (skip : Nat) (limit : Nat) : List MovieOut :=
  ((db.movies.drop skip).take limit).map movieOut

/-- `POST /movies/` (src lines 138-143): requires an authenticated `user`;
inserts a movie owned by that user under the next primary key. -/
def create_movie (db : DB) (title description : String) (user : User) :
    DB × MovieOut :=
  let movie : Movie :=
    { id := db.nextMovieId, title := title, description := description
      user_id := user.id }
  ({ db with movies := db.movies ++ [movie],
             nextMovieId := db.nextMovieId + 1 },
   movieOut movie)

/-- `GET /movies/{movie_id}` (src lines 145-150). -/
def get_movie (db : DB) (movie_id : Nat) : Except HTTPException MovieOut :=
  match db.movies.find? (fun m => m.id == movie_id) with
  | none => .error { status_code := 404, detail := "Movie not found" }
  | some movie => .ok (movieOut movie)

/-- The collapsed 404 of `update_movie`/`delete_movie` (src lines 156, 166):
raised both for a missing movie and for an owner mismatch. -/
def notFoundOrNotAuthorized : HTTPException :=
  { status_code := 404, detail := "Movie not found or not authorized" }

/-- Replace the first row with the given primary key — SQLAlchemy mutates the
identity-mapped row returned by `.get`, which is the first (and, with unique
keys, only) match. -/
def replaceById (movies : List Movie) (movie_id : Nat) (m' : Movie) :
    List Movie :=
  match movies with
  | [] => []
  | m :: rest =>
    if m.id == movie_id then m' :: rest
    else m :: replaceById rest movie_id m'

/-- Remove the first row with the given primary key (`db.delete(movie)`). -/
def removeById (movies : List Movie) (movie_id : Nat) : List Movie :=
  match movies with
  | [] => []
  | m :: rest =>
    if m.id == movie_id then rest else m :: removeById rest movie_id

/-- `PUT /movies/{movie_id}` (src lines 152-160): 404 unless the movie exists
and is owned by the acting user; otherwise overwrite title and description
and return the updated body. -/
def update_movie (db : DB) (movie_id : Nat) (title description : String)
    (user : User) : DB × Except HTTPException MovieOut :=
  match db.movies.find? (fun m => m.id == movie_id) with
  | none => (db, .error notFoundOrNotAuthorized)
  | some movie =>
    if movie.user_id != user.id then (db, .error notFoundOrNotAuthorized)
    else
      let movie' : Movie := { movie with title := title
                                         description := description }
      ({ db with movies := replaceById db.movies movie_id movie' },
       .ok (movieOut movie'))

/-- `DELETE /movies/{movie_id}` (src lines 162-169): same collapsed 404, then
the row is removed. -/
def delete_movie (db : DB) (movie_id : Nat) (user : User) :
    DB × Except HTTPException String :=
  match db.movies.find? (fun m => m.id == movie_id) with
  | none => (db, .error notFoundOrNotAuthorized)
  | some movie =>
    if movie.user_id != user.id then (db, .error notFoundOrNotAuthorized)
    else ({ db with movies := removeById db.movies movie_id },
          .ok "Movie deleted successfully")

/-- One exposed API call, with the concrete arguments a client supplies.
Protected calls carry the bearer token and the request time; the handler body
runs only when `get_current_user` accepts the token. -/
inductive Op where
  | registerOp (username password : String)
  | loginOp (username password : String) (now : Nat)
  | listOp (skip limit : Nat)
  | readOp (movie_id : Nat)
  | createOp (title description : String) (token : Token) (now : Nat)
  | updateOp (movie_id : Nat) (title description : String) (token : Token)
      (now : Nat)
  | deleteOp (movie_id : Nat) (token : Token) (now : Nat)

/-- The store after one API call: reads leave it untouched, a rejected bearer
token aborts before the handler body, and otherwise the handler's resulting
store is kept. -/
def applyOp (db : DB) : Op → DB
  | .registerOp u p => (register_user db u p).1
  | .loginOp u p now => (login_for_access_token db u p now).1
  | .listOp _ _ => db
  | .readOp _ => db
  | .createOp t d tok now =>
    match get_current_user db tok now with
    | .error _ => db
    | .ok user => (create_movie db t d user).1
  | .updateOp mid t d tok now =>
    match get_current_user db tok now with
    | .error _ => db
    | .ok user => (update_movie db mid t d user).1
  | .deleteOp mid tok now =>
    match get_current_user db tok now with
    | .error _ => db
    | .ok user => (delete_movie db mid user).1

/-- The store after a whole sequence of API calls. -/
def applyOps (db : DB) (ops : List Op) : DB :=
  ops.foldl applyOp db

/-- The owner recorded for movie id `i`, when such a movie exists. -/
def ownerOf (db : DB) (i : Nat) : Option Nat :=
  (db.movies.find? (fun m => m.id == i)).map (fun m => m.user_id)

/-- Well-formedness the SQLite schema guarantees: primary keys are unique,
and the autoincrement counter is ahead of every allocated key. -/
def WF (db : DB) : Prop :=
  (∀ m ∈ db.movies, m.id < db.nextMovieId) ∧
    (db.movies.map (fun m => m.id)).Nodup

instance (db : DB) : Decidable (WF db) := by
  unfold WF; infer_instance

/-- Invariant carried across API calls while tracking movie id `i`: the
store is well-formed, `i` is already allocated (so a later create cannot
reuse it), and the movie either still records owner `o` or has been
deleted. -/
def OwnerInv (i o : Nat) (db : DB) : Prop :=
  WF db ∧ i < db.nextMovieId ∧
    (ownerOf db i = some o ∨ ownerOf db i = none)

/-- Claim C9: `register_user` validates nothing about the username or the
password: whenever no stored user carries the requested username — even for
the empty username and empty password — registration succeeds and inserts
exactly one user, hashed password and fresh id, leaving everything else
untouched. -/
theorem register_user_no_content_validation (db : DB) (u p : String)
    (h : db.users.find? (fun x => x.username == u) = none) :
    register_user db u p =
      ({ db with
          users := db.users ++
            [{ id := db.nextUserId, username := u,
               password := get_password_hash p }],
          nextUserId := db.nextUserId + 1 },
       .ok "User created successfully") := by
  unfold register_user
  rw [h]

/-- Witness for C9 at the empty username and empty password. -/
theorem register_user_no_content_validation_witness :
    (DB.mk [] [] 1 1).users.find? (fun x => x.username == "") = none ∧
    register_user (DB.mk [] [] 1 1) "" "" =
      ({ DB.mk [] [] 1 1 with
          users := [{ id := 1, username := "",
                      password := get_password_hash "" }],
          nextUserId := 2 },
       .ok "User created successfully") :=
  ⟨rfl, register_user_no_content_validation (DB.mk [] [] 1 1) "" "" rfl⟩

/-- Claim C10: the login handler performs no write: for every input the
store it returns is the one it was given, whether it issues a token or
fails with the 401. -/
theorem login_for_access_token_preserves_state (db : DB) (u p : String)
    (now : Nat) :
    (login_for_access_token db u p now).1 = db ∧
    ((∃ r, (login_for_access_token db u p now).2 = .ok r) ∨
      (login_for_access_token db u p now).2 =
        .error { status_code := 401, detail := "Invalid credentials" }) := by
  refine ⟨rfl, ?_⟩
  cases hf : db.users.find? (fun x => x.username == u) with
  | none =>
    right
    simp [login_for_access_token, hf]
  | some user =>
    cases hv : verify_password p user.password with
    | false =>
      right
      simp [login_for_access_token, hf, hv]
    | true =>
      left
      refine ⟨{ access_token := create_access_token (some user.id) (some (ACCESS_TOKEN_EXPIRE_MINUTES * 60)) now, token_type := "bearer" }, ?_⟩
      simp [login_for_access_token, hf, hv]

/-- Claim C4: the two failing login runs — unknown username, and known
username with a password that does not verify — produce literally the same
error, status 401 with detail Invalid credentials, so the response does not
reveal which check failed. -/
theorem login_failures_indistinguishable (db : DB) (u1 p1 u2 p2 : String)
    (t1 t2 : Nat) (user2 : User)
    (h1 : db.users.find? (fun x => x.username == u1) = none)
    (h2 : db.users.find? (fun x => x.username == u2) = some user2)
    (h3 : verify_password p2 user2.password = false) :
    (login_for_access_token db u1 p1 t1).2 =
      .error { status_code := 401, detail := "Invalid credentials" } ∧
    (login_for_access_token db u2 p2 t2).2 =
      .error { status_code := 401, detail := "Invalid credentials" } ∧
    (login_for_access_token db u1 p1 t1).2 =
      (login_for_access_token db u2 p2 t2).2 := by
  refine ⟨?_, ?_, ?_⟩ <;>
    simp [login_for_access_token, h1, h2, h3]

/-- Witness for C4: a store holding only the user bob; login as the unknown
alice and login as bob with a wrong password yield the identical 401. -/
theorem login_failures_indistinguishable_witness :
    (DB.mk [User.mk 1 "bob" (get_password_hash "pw")] [] 2 1).users.find?
        (fun x => x.username == "alice") = none ∧
    (DB.mk [User.mk 1 "bob" (get_password_hash "pw")] [] 2 1).users.find?
        (fun x => x.username == "bob") =
      some (User.mk 1 "bob" (get_password_hash "pw")) ∧
    verify_password "wrong" (get_password_hash "pw") = false ∧
    (login_for_access_token
        (DB.mk [User.mk 1 "bob" (get_password_hash "pw")] [] 2 1)
        "alice" "x" 5).2 =
      .error { status_code := 401, detail := "Invalid credentials" } :=
  ⟨by decide, by decide, by decide,
    (login_failures_indistinguishable
      (DB.mk [User.mk 1 "bob" (get_password_hash "pw")] [] 2 1)
      "alice" "x" "bob" "wrong" 5 7
      (User.mk 1 "bob" (get_password_hash "pw"))
      (by decide) (by decide) (by decide)).1⟩

/-- Claim C5: once `register_user db u p1` has succeeded, a second
registration of the same username fails with the 400 UsernameTaken error and
leaves the store — in particular the first user's record — untouched. -/
theorem register_user_twice_username_taken (db db1 : DB) (u p1 p2 r : String)
    (h : register_user db u p1 = (db1, .ok r)) :
    register_user db1 u p2 =
      (db1, .error { status_code := 400, detail := "Username already taken" })
      := by
  unfold register_user at h ⊢
  cases hf : db.users.find? (fun x => x.username == u) with
  | some _ => rw [hf] at h; simp at h
  | none =>
    rw [hf] at h
    have hdb1 : db1 = { db with
        users := db.users ++
          [{ id := db.nextUserId, username := u,
             password := get_password_hash p1 }],
        nextUserId := db.nextUserId + 1 } := by
      have h1 := congrArg Prod.fst h
      simp at h1
      exact h1.symm
    subst hdb1
    simp [List.find?_append, hf]

/-- Witness for C5: register alice, then register alice again. -/
theorem register_user_twice_username_taken_witness :
    register_user (DB.mk [] [] 1 1) "alice" "x" =
      ({ DB.mk [] [] 1 1 with
          users := [{ id := 1, username := "alice",
                      password := get_password_hash "x" }],
          nextUserId := 2 },
       .ok "User created successfully") ∧
    register_user
        { DB.mk [] [] 1 1 with
            users := [{ id := 1, username := "alice",
                        password := get_password_hash "x" }],
            nextUserId := 2 } "alice" "y" =
      ({ DB.mk [] [] 1 1 with
          users := [{ id := 1, username := "alice",
                      password := get_password_hash "x" }],
          nextUserId := 2 },
       .error { status_code := 400, detail := "Username already taken" }) :=
  ⟨rfl,
    register_user_twice_username_taken (DB.mk [] [] 1 1) _ "alice" "x" "y"
      "User created successfully" rfl⟩

/-- Claim C1: when the movie id resolves to a movie whose owner differs from
the acting user — and equally when it resolves to nothing — both
`update_movie` and `delete_movie` fail with the 404
not-found-or-not-authorized error (404, not 403) and return the store
unchanged, so the stored movie keeps its title, description and owner. -/
theorem update_delete_by_nonowner_is_notfound (db : DB) (mid : Nat)
    (t d : String) (B : User)
    (h : Option.all (fun M => M.user_id != B.id)
        (db.movies.find? (fun m => m.id == mid)) = true) :
    update_movie db mid t d B = (db, .error notFoundOrNotAuthorized) ∧
    delete_movie db mid B = (db, .error notFoundOrNotAuthorized) ∧
    notFoundOrNotAuthorized.status_code = 404 := by
  cases hf : db.movies.find? (fun m => m.id == mid) with
  | none =>
    exact ⟨by simp [update_movie, hf], by simp [delete_movie, hf], rfl⟩
  | some M =>
    rw [hf] at h
    have hid : (M.user_id != B.id) = true := by simpa [Option.all] using h
    exact ⟨by simp [update_movie, hf, hid], by simp [delete_movie, hf, hid],
      rfl⟩

/-- Witness for C1: a movie owned by user 1, acted on by user 2, and an
absent id 9. -/
theorem update_delete_by_nonowner_is_notfound_witness :
    Option.all (fun M => M.user_id != (User.mk 2 "eve" "h").id)
        ((DB.mk [] [Movie.mk 1 "t" "d" 1] 3 2).movies.find?
          (fun m => m.id == 1)) = true ∧
    update_movie (DB.mk [] [Movie.mk 1 "t" "d" 1] 3 2) 1 "x" "y"
        (User.mk 2 "eve" "h") =
      (DB.mk [] [Movie.mk 1 "t" "d" 1] 3 2, .error notFoundOrNotAuthorized) ∧
    delete_movie (DB.mk [] [Movie.mk 1 "t" "d" 1] 3 2) 9
        (User.mk 2 "eve" "h") =
      (DB.mk [] [Movie.mk 1 "t" "d" 1] 3 2, .error notFoundOrNotAuthorized) :=
  ⟨by decide,
    (update_delete_by_nonowner_is_notfound
      (DB.mk [] [Movie.mk 1 "t" "d" 1] 3 2) 1 "x" "y"
      (User.mk 2 "eve" "h") (by decide)).1,
    (update_delete_by_nonowner_is_notfound
      (DB.mk [] [Movie.mk 1 "t" "d" 1] 3 2) 9 "x" "y"
      (User.mk 2 "eve" "h") (by decide)).2.1⟩

/-- Claim C3: any token whose signature does not verify against the server
secret is rejected by `get_current_user` with the 401, no matter what expiry
or subject claims its payload carries and no matter the store or the
current time. -/
theorem tampered_token_always_rejected (db : DB) (tok : Token) (now : Nat)
    (h : tok.sig ≠ macSign SECRET_KEY tok.payload) :
    get_current_user db tok now = .error credentials_exception ∧
    credentials_exception.status_code = 401 := by
  have hs : (tok.sig == macSign SECRET_KEY tok.payload) = false := by
    simpa using h
  exact ⟨by simp [get_current_user, jwt_decode, hs], rfl⟩

/-- Witness for C3: a far-future, well-formed payload whose signature is off
by one. -/
theorem tampered_token_always_rejected_witness :
    (Token.mk (Payload.mk (some 1) 999999)
        (macSign SECRET_KEY (Payload.mk (some 1) 999999) + 1)).sig ≠
      macSign SECRET_KEY
        (Token.mk (Payload.mk (some 1) 999999)
          (macSign SECRET_KEY (Payload.mk (some 1) 999999) + 1)).payload ∧
    get_current_user (DB.mk [User.mk 1 "bob" "h"] [] 2 1)
        (Token.mk (Payload.mk (some 1) 999999)
          (macSign SECRET_KEY (Payload.mk (some 1) 999999) + 1)) 0 =
      .error credentials_exception :=
  ⟨by decide,
    (tampered_token_always_rejected (DB.mk [User.mk 1 "bob" "h"] [] 2 1)
      (Token.mk (Payload.mk (some 1) 999999)
        (macSign SECRET_KEY (Payload.mk (some 1) 999999) + 1)) 0
      (by decide)).1⟩

/-- Claim C6: for any authenticated user and any title and description,
creating a movie and immediately reading back the returned id succeeds and
returns exactly the title and description that were passed, provided the
autoincrement key is fresh (which the schema guarantees). -/
theorem create_then_get_roundtrip (db : DB) (t d : String) (user : User)
    (h : db.movies.all (fun m => m.id != db.nextMovieId) = true) :
    get_movie (create_movie db t d user).1 (create_movie db t d user).2.id =
      .ok { id := db.nextMovieId, title := t, description := d } := by
  have hn : db.movies.find? (fun m => m.id == db.nextMovieId) = none := by
    rw [List.find?_eq_none]
    intro x hx
    simpa using (List.all_eq_true.mp h) x hx
  simp [create_movie, get_movie, movieOut, List.find?_append, hn]

/-- Witness for C6 on a store already holding one movie. -/
theorem create_then_get_roundtrip_witness :
    (DB.mk [] [Movie.mk 1 "a" "b" 1] 2 2).movies.all
        (fun m => m.id != (DB.mk [] [Movie.mk 1 "a" "b" 1] 2 2).nextMovieId)
        = true ∧
    get_movie
        (create_movie (DB.mk [] [Movie.mk 1 "a" "b" 1] 2 2) "X" "Y"
          (User.mk 1 "bob" "h")).1
        (create_movie (DB.mk [] [Movie.mk 1 "a" "b" 1] 2 2) "X" "Y"
          (User.mk 1 "bob" "h")).2.id =
      .ok { id := 2, title := "X", description := "Y" } :=
  ⟨by decide,
    create_then_get_roundtrip (DB.mk [] [Movie.mk 1 "a" "b" 1] 2 2) "X" "Y"
      (User.mk 1 "bob" "h") (by decide)⟩

/-- Claim C7: `get_movies` implements offset/limit pagination over the
stable rowid order: it skips the first `skip` movies and returns at most
`limit` of the rest; on a catalog of 15 movies, skip 0 / limit 10 yields
exactly the first ten and skip 10 / limit 10 exactly the remaining five,
and together the two pages are the whole catalog. -/
theorem get_movies_pagination (db : DB) (h : db.movies.length = 15) :
    (∀ skip limit, get_movies db skip limit =
        ((db.movies.drop skip).take limit).map movieOut) ∧
    get_movies db 0 10 = (db.movies.take 10).map movieOut ∧
    (get_movies db 0 10).length = 10 ∧
    get_movies db 10 10 = (db.movies.drop 10).map movieOut ∧
    (get_movies db 10 10).length = 5 ∧
    get_movies db 0 10 ++ get_movies db 10 10 = db.movies.map movieOut := by
  have h5 : (db.movies.drop 10).length ≤ 10 := by simp [List.length_drop, h]
  refine ⟨fun skip limit => rfl, by simp [get_movies], ?_, ?_, ?_, ?_⟩
  · simp [get_movies, List.length_take, List.length_drop, h]
  · simp [get_movies, List.take_of_length_le h5]
  · simp [get_movies, List.length_take, List.length_drop, h]
  · simp only [get_movies, List.drop_zero, List.take_of_length_le h5]
    rw [← List.map_append, List.take_append_drop]

/-- Witness for C7 on a concrete catalog of 15 movies. -/
theorem get_movies_pagination_witness :
    (DB.mk [] ((List.range 15).map (fun i => Movie.mk i "t" "d" 1)) 2 15).movies.length = 15 ∧
    (get_movies (DB.mk [] ((List.range 15).map (fun i => Movie.mk i "t" "d" 1)) 2 15) 0 10).length = 10 ∧
    (get_movies (DB.mk [] ((List.range 15).map (fun i => Movie.mk i "t" "d" 1)) 2 15) 10 10).length = 5 :=
  ⟨by decide,
    (get_movies_pagination
      (DB.mk [] ((List.range 15).map (fun i => Movie.mk i "t" "d" 1)) 2 15)
      (by decide)).2.2.1,
    (get_movies_pagination
      (DB.mk [] ((List.range 15).map (fun i => Movie.mk i "t" "d" 1)) 2 15)
      (by decide)).2.2.2.2.1⟩

/-- Claim C2: a token the login flow issues at time T carries the 30-minute
ttl: the Authorization Guard accepts it at any time `taccept` with
T < taccept ≤ T + 30 minutes (resolving the subject to the stored user) and
rejects it with the 401 at any time `treject` strictly after T + 30
minutes. -/
theorem login_token_thirty_minute_lifetime (db db' : DB) (u p : String)
    (T treject taccept uid : Nat) (u' : User) (resp : TokenResponse)
    (hlogin : (login_for_access_token db u p T).2 = .ok resp)
    (huid : resp.access_token.payload.user_id = some uid)
    (hreject : T + ACCESS_TOKEN_EXPIRE_MINUTES * 60 < treject)
    (haccept1 : T < taccept)
    (haccept2 : taccept ≤ T + ACCESS_TOKEN_EXPIRE_MINUTES * 60)
    (hfind : db'.users.find? (fun x => x.id == uid) = some u') :
    get_current_user db' resp.access_token treject =
      .error credentials_exception ∧
    get_current_user db' resp.access_token taccept = .ok u' ∧
    credentials_exception.status_code = 401 := by
  have h0 : (ACCESS_TOKEN_EXPIRE_MINUTES * 60 == 0) = false := by decide
  unfold login_for_access_token at hlogin
  cases hf : db.users.find? (fun x => x.username == u) with
  | none => rw [hf] at hlogin; simp at hlogin
  | some user =>
    rw [hf] at hlogin
    cases hv : verify_password p user.password with
    | false => simp [hv] at hlogin
    | true =>
      simp only [hv, if_true] at hlogin
      simp at hlogin
      subst hlogin
      simp only [create_access_token, h0] at huid ⊢
      simp at huid
      subst huid
      have hne : ¬ (T + ACCESS_TOKEN_EXPIRE_MINUTES * 60 < taccept) := by
        omega
      refine ⟨?_, ?_, rfl⟩
      · simp [get_current_user, jwt_decode, hreject]
      · simp [get_current_user, jwt_decode, hne, hfind]

/-- Witness for C2: bob logs in at T = 1000; the token is accepted at
t = 2800 = T + 1800 and rejected at t = 2801. -/
theorem login_token_thirty_minute_lifetime_witness :
    (login_for_access_token (DB.mk [User.mk 1 "bob" (get_password_hash "pw")] [] 2 1) "bob" "pw" 1000).2 =
      .ok (TokenResponse.mk (Token.mk (Payload.mk (some 1) 2800) (macSign SECRET_KEY (Payload.mk (some 1) 2800))) "bearer") ∧
    get_current_user (DB.mk [User.mk 1 "bob" (get_password_hash "pw")] [] 2 1)
        (Token.mk (Payload.mk (some 1) 2800) (macSign SECRET_KEY (Payload.mk (some 1) 2800))) 2801 =
      .error credentials_exception ∧
    get_current_user (DB.mk [User.mk 1 "bob" (get_password_hash "pw")] [] 2 1)
        (Token.mk (Payload.mk (some 1) 2800) (macSign SECRET_KEY (Payload.mk (some 1) 2800))) 2800 =
      .ok (User.mk 1 "bob" (get_password_hash "pw")) := by
  have h := login_token_thirty_minute_lifetime
    (DB.mk [User.mk 1 "bob" (get_password_hash "pw")] [] 2 1)
    (DB.mk [User.mk 1 "bob" (get_password_hash "pw")] [] 2 1)
    "bob" "pw" 1000 2801 2800 1 (User.mk 1 "bob" (get_password_hash "pw"))
    (TokenResponse.mk (Token.mk (Payload.mk (some 1) 2800) (macSign SECRET_KEY (Payload.mk (some 1) 2800))) "bearer")
    rfl rfl (by decide) (by decide) (by decide) (by decide)
  exact ⟨rfl, h.1, h.2.1⟩

theorem find?_append_some {l l' : List Movie} {p : Movie → Bool} {a : Movie}
    (h : l.find? p = some a) : (l ++ l').find? p = some a := by
  rw [List.find?_append, h]
  rfl

theorem replaceById_map_id (l : List Movie) (mid : Nat) (m' : Movie)
    (hid : m'.id = mid) :
    (replaceById l mid m').map (fun m => m.id) = l.map (fun m => m.id) := by
  induction l with
  | nil => rfl
  | cons a rest ih =>
    by_cases ha : a.id = mid
    · simp [replaceById, ha, hid]
    · simp [replaceById, ha, ih]

theorem find?_replaceById_self (l : List Movie) (mid : Nat) (m m' : Movie)
    (hf : l.find? (fun x => x.id == mid) = some m) (hid : m'.id = mid) :
    (replaceById l mid m').find? (fun x => x.id == mid) = some m' := by
  induction l with
  | nil => simp at hf
  | cons a rest ih =>
    by_cases ha : a.id = mid
    · simp [replaceById, ha, List.find?_cons, hid]
    · have hf' : rest.find? (fun x => x.id == mid) = some m := by
        simpa [List.find?_cons, ha] using hf
      simp [replaceById, ha, List.find?_cons, ih hf']

theorem find?_replaceById_ne (l : List Movie) (mid i : Nat) (m' : Movie)
    (hne : m'.id ≠ i) (hmid : mid ≠ i) :
    (replaceById l mid m').find? (fun x => x.id == i) =
      l.find? (fun x => x.id == i) := by
  induction l with
  | nil => rfl
  | cons a rest ih =>
    by_cases ha : a.id = mid
    · have h1 : (m'.id == i) = false := by simpa using hne
      have h2 : (mid == i) = false := by simpa using hmid
      simp [replaceById, ha, List.find?_cons, h1, h2]
    · simp [replaceById, ha, List.find?_cons, ih]

theorem removeById_sublist (l : List Movie) (mid : Nat) :
    (removeById l mid).Sublist l := by
  induction l with
  | nil => simp [removeById]
  | cons a rest ih =>
    by_cases ha : a.id = mid
    · simp only [removeById]
      rw [if_pos (by simpa using ha)]
      exact List.Sublist.cons a (List.Sublist.refl rest)
    · simp only [removeById]
      rw [if_neg (by simpa using ha)]
      exact List.Sublist.cons₂ a ih

theorem find?_removeById_ne (l : List Movie) (mid i : Nat) (hmi : mid ≠ i) :
    (removeById l mid).find? (fun x => x.id == i) =
      l.find? (fun x => x.id == i) := by
  induction l with
  | nil => rfl
  | cons a rest ih =>
    by_cases ha : a.id = mid
    · have h2 : (mid == i) = false := by simpa using hmi
      simp [removeById, ha, List.find?_cons, h2]
    · simp [removeById, ha, List.find?_cons, ih]

theorem find?_removeById_self (l : List Movie) (mid : Nat)
    (hnd : (l.map (fun m => m.id)).Nodup) :
    (removeById l mid).find? (fun x => x.id == mid) = none := by
  induction l with
  | nil => rfl
  | cons a rest ih =>
    simp only [List.map_cons, List.nodup_cons] at hnd
    obtain ⟨hna, hnd'⟩ := hnd
    by_cases ha : a.id = mid
    · simp only [removeById]
      rw [if_pos (by simpa using ha)]
      rw [List.find?_eq_none]
      intro x hx hpx
      apply hna
      have hxm : x.id = mid := by simpa using hpx
      have : x.id ∈ rest.map (fun m => m.id) := List.mem_map_of_mem _ hx
      rwa [hxm, ← ha] at this
    · simp [removeById, ha, List.find?_cons, ih hnd']

theorem ownerInv_congr (i o : Nat) (db db' : DB)
    (hm : db'.movies = db.movies) (hn : db'.nextMovieId = db.nextMovieId)
    (h : OwnerInv i o db) : OwnerInv i o db' := by
  unfold OwnerInv WF ownerOf at h ⊢
  simp only [hm, hn]
  exact h

theorem ownerInv_create (i o : Nat) (db : DB) (t d : String) (user : User)
    (h : OwnerInv i o db) : OwnerInv i o (create_movie db t d user).1 := by
  obtain ⟨⟨hbound, hnd⟩, hlt, hown⟩ := h
  have h1 : (create_movie db t d user).1.movies =
      db.movies ++ [⟨db.nextMovieId, t, d, user.id⟩] := rfl
  have h2 : (create_movie db t d user).1.nextMovieId =
      db.nextMovieId + 1 := rfl
  refine ⟨⟨?_, ?_⟩, ?_, ?_⟩
  · intro m hm
    rw [h2]
    rw [h1] at hm
    rcases List.mem_append.mp hm with hm | hm
    · exact Nat.lt_succ_of_lt (hbound m hm)
    · rw [List.mem_singleton.mp hm]
      exact Nat.lt_succ_self _
  · rw [h1, List.map_append, List.nodup_append]
    refine ⟨hnd, by simp, ?_⟩
    intro x hx hx'
    obtain ⟨y, hy, hyid⟩ := List.mem_map.mp hx
    have hxn : x = db.nextMovieId := by simpa using hx'
    have := hbound y hy
    omega
  · rw [h2]
    exact Nat.lt_succ_of_lt hlt
  · unfold ownerOf at hown ⊢
    rw [h1]
    rcases hown with hsome | hnone
    · cases hf : db.movies.find? (fun m => m.id == i) with
      | none => rw [hf] at hsome; simp at hsome
      | some m =>
        left
        rw [find?_append_some hf]
        rw [hf] at hsome
        exact hsome
    · cases hf : db.movies.find? (fun m => m.id == i) with
      | some m => rw [hf] at hnone; simp at hnone
      | none =>
        right
        rw [List.find?_append, hf]
        have hne : ((⟨db.nextMovieId, t, d, user.id⟩ : Movie).id == i) =
            false := by
          simp only [beq_eq_false_iff_ne]
          show db.nextMovieId ≠ i
          omega
        simp [List.find?_cons, hne]

theorem ownerInv_update (i o mid : Nat) (db : DB) (t d : String)
    (user : User) (h : OwnerInv i o db) :
    OwnerInv i o (update_movie db mid t d user).1 := by
  cases hf : db.movies.find? (fun m => m.id == mid) with
  | none =>
    have he : (update_movie db mid t d user).1 = db := by
      simp [update_movie, hf]
    rw [he]
    exact h
  | some movie =>
    by_cases howner : movie.user_id = user.id
    case neg =>
      have he : (update_movie db mid t d user).1 = db := by
        simp [update_movie, hf, howner]
      rw [he]
      exact h
    case pos =>
      have hmid : movie.id = mid := by simpa using List.find?_some hf
      have h1 : (update_movie db mid t d user).1.movies =
          replaceById db.movies mid
            { movie with title := t, description := d } := by
        simp [update_movie, hf, howner]
      have h2 : (update_movie db mid t d user).1.nextMovieId =
          db.nextMovieId := by
        simp [update_movie, hf, howner]
      obtain ⟨⟨hbound, hnd⟩, hlt, hown⟩ := h
      have hmap := replaceById_map_id db.movies mid
        { movie with title := t, description := d } (by simpa using hmid)
      refine ⟨⟨?_, ?_⟩, ?_, ?_⟩
      · intro m hm
        rw [h2]
        rw [h1] at hm
        have hmem : m.id ∈ (replaceById db.movies mid
            { movie with title := t, description := d }).map
              (fun m => m.id) := List.mem_map_of_mem _ hm
        rw [hmap] at hmem
        obtain ⟨y, hy, hyid⟩ := List.mem_map.mp hmem
        exact hyid ▸ hbound y hy
      · rw [h1, hmap]
        exact hnd
      · rw [h2]
        exact hlt
      · unfold ownerOf at hown ⊢
        rw [h1]
        by_cases hi : mid = i
        · subst hi
          rw [find?_replaceById_self db.movies mid movie _ hf
            (by simpa using hmid)]
          rw [hf] at hown
          rcases hown with hsome | hnone
          · left
            simpa using hsome
          · simp at hnone
        · rw [find?_replaceById_ne db.movies mid i _
            (by simpa [hmid] using hi) hi]
          exact hown

theorem ownerInv_delete (i o mid : Nat) (db : DB) (user : User)
    (h : OwnerInv i o db) : OwnerInv i o (delete_movie db mid user).1 := by
  cases hf : db.movies.find? (fun m => m.id == mid) with
  | none =>
    have he : (delete_movie db mid user).1 = db := by
      simp [delete_movie, hf]
    rw [he]
    exact h
  | some movie =>
    by_cases howner : movie.user_id = user.id
    case neg =>
      have he : (delete_movie db mid user).1 = db := by
        simp [delete_movie, hf, howner]
      rw [he]
      exact h
    case pos =>
      have h1 : (delete_movie db mid user).1.movies =
          removeById db.movies mid := by
        simp [delete_movie, hf, howner]
      have h2 : (delete_movie db mid user).1.nextMovieId =
          db.nextMovieId := by
        simp [delete_movie, hf, howner]
      obtain ⟨⟨hbound, hnd⟩, hlt, hown⟩ := h
      have hsub := removeById_sublist db.movies mid
      refine ⟨⟨?_, ?_⟩, ?_, ?_⟩
      · intro m hm
        rw [h2]
        rw [h1] at hm
        exact hbound m (hsub.subset hm)
      · rw [h1]
        exact List.Nodup.sublist (List.Sublist.map _ hsub) hnd
      · rw [h2]
        exact hlt
      · unfold ownerOf at hown ⊢
        rw [h1]
        by_cases hi : mid = i
        · subst hi
          rw [find?_removeById_self db.movies mid hnd]
          exact Or.inr rfl
        · rw [find?_removeById_ne db.movies mid i hi]
          exact hown

theorem ownerInv_step (i o : Nat) (db : DB) (op : Op)
    (h : OwnerInv i o db) : OwnerInv i o (applyOp db op) := by
  cases op with
  | registerOp u p =>
    refine ownerInv_congr i o db _ ?_ ?_ h
    · show (register_user db u p).1.movies = db.movies
      unfold register_user
      cases db.users.find? (fun x => x.username == u) <;> rfl
    · show (register_user db u p).1.nextMovieId = db.nextMovieId
      unfold register_user
      cases db.users.find? (fun x => x.username == u) <;> rfl
  | loginOp u p now => exact h
  | listOp s l => exact h
  | readOp m => exact h
  | createOp t d tok now =>
    simp only [applyOp]
    cases get_current_user db tok now with
    | error e => exact h
    | ok user => exact ownerInv_create i o db t d user h
  | updateOp mid t d tok now =>
    simp only [applyOp]
    cases get_current_user db tok now with
    | error e => exact h
    | ok user => exact ownerInv_update i o mid db t d user h
  | deleteOp mid tok now =>
    simp only [applyOp]
    cases get_current_user db tok now with
    | error e => exact h
    | ok user => exact ownerInv_delete i o mid db user h

theorem ownerInv_steps (i o : Nat) (ops : List Op) :
    ∀ db : DB, OwnerInv i o db → OwnerInv i o (applyOps db ops) := by
  induction ops with
  | nil => intro db h; exact h
  | cons op rest ih =>
    intro db h
    exact ih (applyOp db op) (ownerInv_step i o db op h)

/-- Claim C8: the owner id recorded at creation never changes: across any
sequence of exposed API calls a movie either still records its original
owner or has been deleted, and a successful `update_movie` by the owner
returns and stores a movie with the original id and `user_id` and only the
title and description replaced. -/
theorem movie_owner_never_changes (db : DB) (i o : Nat) (ops : List Op)
    (t d : String) (A : User) (M : Movie)
    (hwf : WF db) (hown : ownerOf db i = some o)
    (hM : db.movies.find? (fun m => m.id == i) = some M)
    (hA : M.user_id = A.id) :
    (ownerOf (applyOps db ops) i = some o ∨
      ownerOf (applyOps db ops) i = none) ∧
    (update_movie db i t d A).2 =
      .ok { id := M.id, title := t, description := d } ∧
    (update_movie db i t d A).1.movies.find? (fun m => m.id == i) =
      some { id := M.id, title := t, description := d,
             user_id := M.user_id } := by
  have hMi : M.id = i := by simpa using List.find?_some hM
  have hlt : i < db.nextMovieId := hMi ▸ hwf.1 M (List.mem_of_find?_eq_some hM)
  have hinv : OwnerInv i o (applyOps db ops) :=
    ownerInv_steps i o ops db ⟨hwf, hlt, Or.inl hown⟩
  refine ⟨hinv.2.2, ?_, ?_⟩
  · simp [update_movie, movieOut, hM, hA]
  · have h1 : (update_movie db i t d A).1.movies =
        replaceById db.movies i { M with title := t, description := d } := by
      simp [update_movie, hM, hA]
    rw [h1]
    rw [find?_replaceById_self db.movies i M _ hM (by simpa using hMi)]

/-- Witness for C8: a movie owned by user 7 survives a register call and a
stranger's delete attempt with its owner intact, and the owner's update
changes only the title and description. -/
theorem movie_owner_never_changes_witness :
    WF (DB.mk [User.mk 7 "ann" "h"] [Movie.mk 1 "t" "d" 7] 8 2) ∧
    ownerOf (DB.mk [User.mk 7 "ann" "h"] [Movie.mk 1 "t" "d" 7] 8 2) 1 =
      some 7 ∧
    (DB.mk [User.mk 7 "ann" "h"] [Movie.mk 1 "t" "d" 7] 8 2).movies.find?
        (fun m => m.id == 1) = some (Movie.mk 1 "t" "d" 7) ∧
    (ownerOf (applyOps (DB.mk [User.mk 7 "ann" "h"] [Movie.mk 1 "t" "d" 7] 8 2)
        [Op.registerOp "eve" "pw", Op.deleteOp 1 (Token.mk (Payload.mk (some 9) 50) 0) 10]) 1 = some 7 ∨
      ownerOf (applyOps (DB.mk [User.mk 7 "ann" "h"] [Movie.mk 1 "t" "d" 7] 8 2)
        [Op.registerOp "eve" "pw", Op.deleteOp 1 (Token.mk (Payload.mk (some 9) 50) 0) 10]) 1 = none) ∧
    (update_movie (DB.mk [User.mk 7 "ann" "h"] [Movie.mk 1 "t" "d" 7] 8 2) 1
        "nt" "nd" (User.mk 7 "ann" "h")).2 =
      .ok { id := 1, title := "nt", description := "nd" } :=
  have h := movie_owner_never_changes
    (DB.mk [User.mk 7 "ann" "h"] [Movie.mk 1 "t" "d" 7] 8 2) 1 7
    [Op.registerOp "eve" "pw",
      Op.deleteOp 1 (Token.mk (Payload.mk (some 9) 50) 0) 10]
    "nt" "nd" (User.mk 7 "ann" "h") (Movie.mk 1 "t" "d" 7)
    (by decide) (by decide) (by decide) (by decide)
  ⟨by decide, by decide, by decide, h.1, h.2.1⟩

end Capstone
